import Mathlib

/-!
Verification of the reconciliation and field-mapping engine of the
`dasclient` AGOL synchronization tools (`agol_tools.py`).

The Python code is shallowly embedded: each relevant method of `AgolTools`
becomes a Lean definition over explicit data.  Timestamps are modelled as
integer milliseconds (AGOL `EditDate` values are epoch milliseconds and the
EarthRanger side is `timestamp() * 1000`).  Python dictionaries observed by
the code become association lists, and the in-place mutation that the
translation loop performs on list-valued raw field values is made explicit
by a function returning the mutated value.
-/

namespace AgolSpec

/-! ## Python values appearing in `event_details` -/

/-- Model of a scalar Python value that can appear as an element of an
`event_details` entry: a string or an integer (enough to exercise the
stringification path `str(v)`). -/
inductive PyVal where
  | vstr : String → PyVal
  | vint : Int → PyVal
deriving DecidableEq, Repr

/-- Python `str()` on the modelled scalar values. -/
def pyStr : PyVal → String
  | .vstr s => s
  | .vint n => toString n

/-- A raw field value from `event['event_details']`: a scalar or a list. -/
inductive RawVal where
  | scalar : PyVal → RawVal
  | list : List PyVal → RawVal
deriving DecidableEq, Repr

/-- A `value_map` as built by `_get_er_field_definitions`: a dictionary from
raw values to display values, modelled as an association list. -/
abbrev VMap := List (PyVal × PyVal)

/-- Python `value_map.get(v, v)`: the first binding for `v`, defaulting
to `v` itself when `v` is not a key. -/
def vmapGet (vm : VMap) (v : PyVal) : PyVal :=
  match vm.find? (fun p => p.1 = v) with
  | some p => p.2
  | none => v

/-- One substitution step of the translation loop: applied only when the
field definition carries a `value_map` (`'value_map' in field_def.keys()`). -/
def substOne (vm : Option VMap) (v : PyVal) : PyVal :=
  match vm with
  | some m => vmapGet m v
  | none => v

/-- Coerce a raw value to a list, wrapping scalars, as in
`if(type(field_value) != list): field_value = [field_value]`. -/
def coerceList : RawVal → List PyVal
  | .scalar v => [v]
  | .list l => l

/-- The translated value list for one field, mirroring lines 553-561 of
`upsert_events_from_er`: coerce to a list, substitute each element through
the value map when one exists, then stringify each element
(`_clean_field_value` is the identity hook). -/
def translateFieldValue (vm : Option VMap) (r : RawVal) : List PyVal :=
  ((coerceList r).map (substOne vm)).map (fun v => PyVal.vstr (pyStr v))

/-- The final attribute string: `",".join(field_value)`. -/
def fieldAttr (vm : Option VMap) (r : RawVal) : String :=
  String.intercalate "," ((translateFieldValue vm r).map pyStr)

/-- The raw record value AFTER one translation pass.  In Python the loop
writes `field_value[i] = ...` through the alias obtained from
`event['event_details'][field]`, so a list value is mutated in place, while
a scalar is first rebound to a fresh one-element list and the record is left
untouched. -/
def mutatedRaw (vm : Option VMap) : RawVal → RawVal
  | .scalar v => .scalar v
  | .list l => .list (translateFieldValue vm (.list l))

/-! ## Field names and the target attribute map -/

/-- Model of `_clean_field_name`: replaces every hyphen with an underscore. -/
def clean_field_name (f : String) : String :=
  String.mk (f.data.map (fun c => if c = '-' then '_' else c))

/-- The composite target field name built at line 548:
`self._clean_field_name(field + "_" + field_type)` where `field_type` is the
declared ER type string (`field_def.get('type', 'string')`). -/
def compositeFieldName (field ftype : String) : String :=
  clean_field_name (field ++ "_" ++ ftype)

/-- The `ER_TO_ESRI_FIELD_TYPE` table. -/
def ER_TO_ESRI_FIELD_TYPE : List (String × String) :=
  [("string", "esriFieldTypeString"),
   ("number", "esriFieldTypeDouble"),
   ("default", "esriFieldTypeString")]

/-- Lookup `self.ER_TO_ESRI_FIELD_TYPE.get(field_type, self.ER_TO_ESRI_FIELD_TYPE['default'])`. -/
def esriTypeFor (t : String) : String :=
  match ER_TO_ESRI_FIELD_TYPE.find? (fun p => p.1 = t) with
  | some p => p.2
  | none => "esriFieldTypeString"

/-- A feature attribute map (`feature['attributes']`), as an association
list preserving Python dict insertion order. -/
abbrev AttrMap := List (String × String)

/-- Python dict assignment `m[k] = v`: overwrite in place when the key is
present, append otherwise. -/
def setAttr (m : AttrMap) (k v : String) : AttrMap :=
  if m.any (fun p => p.1 = k) then
    m.map (fun p => if p.1 = k then (k, v) else p)
  else
    m ++ [(k, v)]

/-- Python dict lookup `m[k]` (as an option). -/
def getAttr (m : AttrMap) (k : String) : Option String :=
  (m.find? (fun p => p.1 = k)).map (fun p => p.2)

/-! ## Field provisioning (`_field_already_exists` and the `fields_to_add` queue) -/

/-- A pending new-field entry, `[field_name, esri_type, title]` as built at
line 551 of `upsert_events_from_er`. -/
structure NewField where
  name : String
  esriType : String
  title : String
deriving DecidableEq, Repr

/-- Model of `_field_already_exists(field, esri_layer, additional_fields)`: the layer
is represented by the list of its declared field names
(`esri_layer.properties.fields`), and `additional` by the pending entries
whose first component is compared. -/
def field_already_exists (field : String) (layerFields : List String)
    (additional : List NewField) : Bool :=
  layerFields.any (fun n => n = field) || additional.any (fun nf => nf.name = field)

/-- The accumulation of `fields_to_add` across one pass: for each requested
field (in processing order), the entry is appended only when
`_field_already_exists` is false (lines 550-551). -/
def queueFields (layerFields : List String) : List NewField → List NewField → List NewField
  | [], acc => acc
  | r :: rs, acc =>
      queueFields layerFields rs
        (if field_already_exists r.name layerFields acc then acc else acc ++ [r])

/-! ## Batching (`_chunk`, `_add_features`, `_update_features`) -/

/-- Model of `_chunk(lst, chunk_size)`: the sublists `lst[i:i+chunk_size]` for
`i in range(0, len(lst), chunk_size)`.  All call sites use a positive chunk
size (2, 5 or 50); for `n = 0` Python's `range` would raise, and the model
returns `[]`. -/
def chunkList (n : Nat) : List α → List (List α)
  | [] => []
  | a :: as =>
      if _h : n = 0 then []
      else (a :: as).take n :: chunkList n ((a :: as).drop n)
termination_by l => l.length
decreasing_by
  simp only [List.length_drop, List.length_cons]
  omega

/-- Model of `_add_features`: one `edit_features(adds = chunk)` call per chunk; the
backend's per-feature outcome is modelled by the oracle `ok`, and the
returned count increments exactly for the successful results
(lines 299-308). -/
def add_features (ok : α → Bool) (l : List α) (chunk_size : Nat) : Nat :=
  ((chunkList chunk_size l).map (fun c => (c.filter ok).length)).sum

/-- Model of `_update_features`: identical loop over `edit_features(updates = chunk)`
(lines 321-330). -/
def update_features (ok : α → Bool) (l : List α) (chunk_size : Nat) : Nat :=
  ((chunkList chunk_size l).map (fun c => (c.filter ok).length)).sum

/-- The number of mutation calls a list generates: one per chunk. -/
def mutationCalls (l : List α) (chunk_size : Nat) : Nat :=
  (chunkList chunk_size l).length

/-! ## The existing-event index (`_get_existing_esri_events`) -/

/-- A feature row returned by `events_layer.query`: its `ER_REPORT_NUMBER`,
`OBJECTID` and `EditDate` attributes. -/
structure QueriedEvent where
  reportNumber : String
  objectId : Int
  editDateMs : Int
deriving DecidableEq, Repr

/-- The value stored in the existing-event index:
`[OBJECTID, EditDate]`. -/
structure EsriEventRef where
  objectId : Int
  editDateMs : Int
deriving DecidableEq, Repr

/-- The index built from the query result (lines 165-168): keys are
`str(ER_REPORT_NUMBER)`, later entries overwrite earlier ones as in a
Python dict. -/
def buildEventIndex (rows : List QueriedEvent) : List (String × EsriEventRef) :=
  rows.foldl
    (fun idx row =>
      let entry := (row.reportNumber, EsriEventRef.mk row.objectId row.editDateMs)
      if idx.any (fun p => p.1 = row.reportNumber) then
        idx.map (fun p => if p.1 = row.reportNumber then entry else p)
      else idx ++ [entry])
    []

/-- Character-list prefix test (no library dependence). -/
def listStartsWith : List Char → List Char → Bool
  | [], _ => true
  | _ :: _, [] => false
  | p :: ps, c :: cs => p = c && listStartsWith ps cs

/-- Character-list substring test. -/
def listContainsSub (pat : List Char) : List Char → Bool
  | [] => pat.isEmpty
  | c :: cs => listStartsWith pat (c :: cs) || listContainsSub pat cs

/-- Python `pat in s` on strings (substring containment). -/
def strContainsSub (pat s : String) : Bool :=
  listContainsSub pat.data s.data

/-- The error text matched at line 161. -/
def missingFieldPattern : String :=
  String.mk (['\x27'] ++ "Invalid field: ER_REPORT_NUMBER".data ++ ['\x27']
    ++ " parameter is invalid".data)

/-- Model of `_get_existing_esri_events` after issuing the query, whose outcome is
passed in as `queryResult`: a raised exception whose text contains
`missingFieldPattern` yields an empty index, any other exception is
re-raised, and a successful query yields the built index
(lines 158-168). -/
def get_existing_esri_events (queryResult : Except String (List QueriedEvent)) :
    Except String (List (String × EsriEventRef)) :=
  match queryResult with
  | .error e =>
      if strContainsSub missingFieldPattern e then .ok [] else .error e
  | .ok rows => .ok (buildEventIndex rows)

/-! ## The per-event reconciliation decision (`upsert_events_from_er`) -/

/-- Constant `UPDATE_TIME_PADDING = 24*60` minutes. -/
def UPDATE_TIME_PADDING : Int := 24 * 60

/-- Padding in milliseconds (`self.UPDATE_TIME_PADDING * 60*1000`) added to
the EarthRanger update time at line 505. -/
def paddingMs : Int := UPDATE_TIME_PADDING * 60 * 1000

/-- Dict lookup in the existing-event index
(`existing_events[str(event['serial_number'])]`, guarded by a key test). -/
def indexLookup (idx : List (String × EsriEventRef)) (k : String) : Option EsriEventRef :=
  (idx.find? (fun p => p.1 = k)).map (fun p => p.2)

/-- The fields of an EarthRanger event that drive the add/update/skip
decision: `str(event['serial_number'])`, the parsed `updated_at` in
milliseconds, and `event.get('is_collection')`. -/
structure EREventRec where
  serial : String
  updatedAtMs : Int
  isCollection : Bool
deriving DecidableEq, Repr

/-- The reconciliation decision for one event. -/
inductive Decision where
  | skip
  | insert
  | update
deriving DecidableEq, Repr

/-- The decision taken by the loop body of `upsert_events_from_er`:
lines 499-506 skip a known event whose Esri `EditDate` is strictly greater
than `updated_at + padding`; line 508 skips collections when incidents are
excluded; lines 571-575 then route known events to the update list and
unknown ones to the add list. -/
def eventDecision (idx : List (String × EsriEventRef)) (includeIncidents : Bool)
    (e : EREventRec) : Decision :=
  match indexLookup idx e.serial with
  | some ref =>
      if ref.editDateMs > e.updatedAtMs + paddingMs then .skip
      else if !includeIncidents && e.isCollection then .skip
      else .update
  | none =>
      if !includeIncidents && e.isCollection then .skip
      else .insert

/-- The outgoing feature, reduced to what the routing step determines: the
natural key it carries and the `OBJECTID` attribute, which is set (from the
index) only on the update path (line 572). -/
structure RoutedFeature where
  serial : String
  objectId : Option Int
deriving DecidableEq, Repr

/-- The accumulation of `features_to_add` and `features_to_update` over a
list of events, in processing order. -/
def routeEvents (idx : List (String × EsriEventRef)) (includeIncidents : Bool) :
    List EREventRec → List RoutedFeature × List RoutedFeature
  | [] => ([], [])
  | e :: es =>
      let rest := routeEvents idx includeIncidents es
      match eventDecision idx includeIncidents e with
      | .skip => rest
      | .insert => (RoutedFeature.mk e.serial none :: rest.1, rest.2)
      | .update =>
          (rest.1,
           RoutedFeature.mk e.serial ((indexLookup idx e.serial).map (fun r => r.objectId))
             :: rest.2)

/-! ## Track-point synchronization (`upsert_track_points_from_er`) -/

/-- An EarthRanger observation as consumed by the track-point loop. -/
structure ObsPoint where
  id : String
  recordedAtMs : Int
  location : Option (String × String)
deriving DecidableEq, Repr

/-- The feature built for one observation (lines 655-670); latitude and
longitude are stored stringified. -/
structure TrackFeature where
  observationId : String
  subjectId : String
  subjectName : String
  observationTimeMs : Int
  location : Option (String × String)
deriving DecidableEq, Repr

def mkTrackFeature (subjectId subjectName : String) (p : ObsPoint) : TrackFeature :=
  TrackFeature.mk p.id subjectId subjectName p.recordedAtMs p.location

/-- The `features_to_add` list for one subject: observations whose id is a
key of the existing-point index are skipped (lines 650-672). -/
def trackPointAdds (existingIds : List String) (subjectId subjectName : String)
    (points : List ObsPoint) : List TrackFeature :=
  points.filterMap (fun p =>
    if existingIds.any (fun k => k = p.id) then none
    else some (mkTrackFeature subjectId subjectName p))

/-- The pair of lists handed to `_upsert_features` for one subject: the
update list is the literal `[]` of line 676. -/
def trackPointUpsertArgs (existingIds : List String) (subjectId subjectName : String)
    (points : List ObsPoint) : List TrackFeature × List TrackFeature :=
  (trackPointAdds existingIds subjectId subjectName points, [])


/-! ## Concrete instances used by counterexamples -/

/-- The value map used to refute idempotence of the translation step: its
output `"b"` is itself a mapped key. -/
def chainedVMap : VMap :=
  [(PyVal.vstr "a", PyVal.vstr "b"), (PyVal.vstr "b", PyVal.vstr "c")]

/-- The existing-feature index for the C1 boundary counterexample: the
feature with report number 101 was last edited exactly at
`record update time + padding`. -/
def c1Index : List (String × EsriEventRef) :=
  [("101", EsriEventRef.mk 7 paddingMs)]

/-- The C1 boundary event: updated at epoch 0. -/
def c1Event : EREventRec := EREventRec.mk "101" 0 false

/-! ## Helper lemmas -/

theorem getAttr_cons (p : String × String) (ps : AttrMap) (k : String) :
    getAttr (p :: ps) k = if p.1 = k then some p.2 else getAttr ps k := by
  by_cases h : p.1 = k
  · rw [if_pos h]
    unfold getAttr
    rw [List.find?_cons_of_pos _ (by simpa using h)]
    rfl
  · rw [if_neg h]
    unfold getAttr
    rw [List.find?_cons_of_neg _ (by simpa using h)]

theorem getAttr_map_overwrite_same (m : AttrMap) (k v : String)
    (h : m.any (fun p => p.1 = k) = true) :
    getAttr (m.map (fun p => if p.1 = k then (k, v) else p)) k = some v := by
  induction m with
  | nil => simp at h
  | cons p ps ih =>
    by_cases hp : p.1 = k
    · simp [getAttr_cons, hp]
    · simp only [List.any_cons, decide_eq_false hp, Bool.false_or] at h
      simp only [List.map_cons, if_neg hp]
      rw [getAttr_cons, if_neg hp]
      exact ih h

theorem getAttr_append_single_same (m : AttrMap) (k v : String)
    (h : m.any (fun p => p.1 = k) = false) :
    getAttr (m ++ [(k, v)]) k = some v := by
  induction m with
  | nil => simp [getAttr_cons]
  | cons p ps ih =>
    simp only [List.any_cons, Bool.or_eq_false_iff, decide_eq_false_iff_not] at h
    simp only [List.cons_append]
    rw [getAttr_cons, if_neg h.1]
    exact ih (by simp [h.2])

theorem getAttr_map_overwrite_other (m : AttrMap) (k k' v : String) (hne : k ≠ k') :
    getAttr (m.map (fun p => if p.1 = k' then (k', v) else p)) k = getAttr m k := by
  have hk'k : ¬ ((k' : String) = k) := fun hc => hne hc.symm
  induction m with
  | nil => rfl
  | cons p ps ih =>
    by_cases hp : p.1 = k'
    · have hpk : ¬ (p.1 = k) := by rw [hp]; exact hk'k
      simp only [List.map_cons, if_pos hp]
      rw [getAttr_cons, getAttr_cons]
      simp only [hk'k, if_false, hpk]
      exact ih
    · simp only [List.map_cons, if_neg hp]
      rw [getAttr_cons, getAttr_cons]
      by_cases hk : p.1 = k
      · simp [hk]
      · simp only [hk, if_false]
        exact ih

theorem getAttr_append_single_other (m : AttrMap) (k k' v : String) (hne : k ≠ k') :
    getAttr (m ++ [(k', v)]) k = getAttr m k := by
  have hk'k : ¬ ((k' : String) = k) := fun hc => hne hc.symm
  induction m with
  | nil => simp [getAttr_cons, hk'k, getAttr]
  | cons p ps ih =>
    simp only [List.cons_append]
    rw [getAttr_cons, getAttr_cons]
    by_cases hk : p.1 = k
    · simp [hk]
    · simp only [hk, if_false]
      exact ih

theorem getAttr_setAttr_same (m : AttrMap) (k v : String) :
    getAttr (setAttr m k v) k = some v := by
  unfold setAttr
  by_cases h : m.any (fun p => p.1 = k)
  · rw [if_pos h]
    exact getAttr_map_overwrite_same m k v h
  · rw [if_neg h]
    exact getAttr_append_single_same m k v (Bool.eq_false_iff.mpr h)

theorem getAttr_setAttr_other (m : AttrMap) (k k' v : String) (hne : k ≠ k') :
    getAttr (setAttr m k' v) k = getAttr m k := by
  unfold setAttr
  by_cases h : m.any (fun p => p.1 = k')
  · rw [if_pos h]
    exact getAttr_map_overwrite_other m k k' v hne
  · rw [if_neg h]
    exact getAttr_append_single_other m k k' v hne

theorem chunkList_flatten (n : Nat) (hn : 1 ≤ n) (l : List α) :
    (chunkList n l).flatten = l := by
  have hn0 : ¬ (n = 0) := by omega
  suffices h : ∀ (len : Nat) (l : List α), l.length ≤ len →
      (chunkList n l).flatten = l from h l.length l (le_refl _)
  intro len
  induction len with
  | zero =>
    intro l hl
    have : l = [] := List.length_eq_zero.mp (Nat.le_zero.mp hl)
    subst this
    rw [chunkList]
    rfl
  | succ m ih =>
    intro l hl
    match l with
    | [] =>
      rw [chunkList]
      rfl
    | a :: as =>
      rw [chunkList, dif_neg hn0, List.flatten_cons]
      have hlen : ((a :: as).drop n).length ≤ m := by
        simp only [List.length_drop, List.length_cons]
        simp only [List.length_cons] at hl
        omega
      rw [ih _ hlen]
      exact List.take_append_drop n (a :: as)

theorem add_features_filter (ok : α → Bool) (l : List α) (n : Nat) (hn : 1 ≤ n) :
    add_features ok l n = (l.filter ok).length := by
  unfold add_features
  conv_rhs => rw [← chunkList_flatten n hn l]
  induction chunkList n l with
  | nil => rfl
  | cons c cs ih => simp [List.filter_append, ih]

theorem length_filter_add_length_filter_not (ok : α → Bool) (l : List α) :
    (l.filter ok).length + (l.filter (fun a => !(ok a))).length = l.length := by
  induction l with
  | nil => rfl
  | cons a as ih =>
    by_cases h : ok a = true <;>
      simp only [List.filter_cons, h, Bool.not_true, Bool.not_false, if_true, if_false,
        Bool.not_eq_true] <;>
      simp only [Bool.not_eq_true] at h <;>
      simp [h, List.length_cons, ← ih] <;> omega

/-! ## Claim C9 -/

/-- C9: for every list and every chunk size at least 1, concatenating the
chunks produced by the chunking helper in order yields exactly the original
list — batching drops, duplicates and reorders nothing. -/
theorem C9_chunk_concat_id (l : List α) (n : Nat) (hn : 1 ≤ n) :
    (chunkList n l).flatten = l :=
  chunkList_flatten n hn l

theorem C9_chunk_concat_id_witness :
    (chunkList 3 [10, 20, 30, 40, 50, 60, 70]).flatten = [10, 20, 30, 40, 50, 60, 70] :=
  C9_chunk_concat_id [10, 20, 30, 40, 50, 60, 70] 3 (by decide)

/-! ## Claim C4 -/

/-- C4: for a list of 7 insert features and chunk size 2, `_add_features`
issues exactly 4 mutation calls with chunk sizes 2, 2, 2, 1 in order; a
per-feature failure reported inside a chunk does not prevent the remaining
chunks from being submitted, and the returned added count equals the number
of features minus exactly the failed features (the count plus the number of
failures is 7, for every failure oracle). -/
theorem C4_batch_seven (l : List α) (ok : α → Bool) (hl : l.length = 7) :
    (chunkList 2 l).map List.length = [2, 2, 2, 1] ∧
    mutationCalls l 2 = 4 ∧
    add_features ok l 2 + (l.filter (fun a => !(ok a))).length = 7 := by
  refine ⟨?_, ?_, ?_⟩
  · obtain ⟨a0, l, rfl⟩ := List.exists_of_length_succ l hl
    simp only [List.length_cons] at hl
    obtain ⟨a1, l, rfl⟩ := List.exists_of_length_succ l (by omega : l.length = 5 + 1)
    simp only [List.length_cons] at hl
    obtain ⟨a2, l, rfl⟩ := List.exists_of_length_succ l (by omega : l.length = 4 + 1)
    simp only [List.length_cons] at hl
    obtain ⟨a3, l, rfl⟩ := List.exists_of_length_succ l (by omega : l.length = 3 + 1)
    simp only [List.length_cons] at hl
    obtain ⟨a4, l, rfl⟩ := List.exists_of_length_succ l (by omega : l.length = 2 + 1)
    simp only [List.length_cons] at hl
    obtain ⟨a5, l, rfl⟩ := List.exists_of_length_succ l (by omega : l.length = 1 + 1)
    simp only [List.length_cons] at hl
    obtain ⟨a6, l, rfl⟩ := List.exists_of_length_succ l (by omega : l.length = 0 + 1)
    simp only [List.length_cons] at hl
    have : l = [] := List.length_eq_zero.mp (by omega)
    subst this
    simp [chunkList]
  · obtain ⟨a0, l, rfl⟩ := List.exists_of_length_succ l hl
    simp only [List.length_cons] at hl
    obtain ⟨a1, l, rfl⟩ := List.exists_of_length_succ l (by omega : l.length = 5 + 1)
    simp only [List.length_cons] at hl
    obtain ⟨a2, l, rfl⟩ := List.exists_of_length_succ l (by omega : l.length = 4 + 1)
    simp only [List.length_cons] at hl
    obtain ⟨a3, l, rfl⟩ := List.exists_of_length_succ l (by omega : l.length = 3 + 1)
    simp only [List.length_cons] at hl
    obtain ⟨a4, l, rfl⟩ := List.exists_of_length_succ l (by omega : l.length = 2 + 1)
    simp only [List.length_cons] at hl
    obtain ⟨a5, l, rfl⟩ := List.exists_of_length_succ l (by omega : l.length = 1 + 1)
    simp only [List.length_cons] at hl
    obtain ⟨a6, l, rfl⟩ := List.exists_of_length_succ l (by omega : l.length = 0 + 1)
    simp only [List.length_cons] at hl
    have : l = [] := List.length_eq_zero.mp (by omega)
    subst this
    simp [mutationCalls, chunkList]
  · rw [add_features_filter ok l 2 (by omega), ← hl]
    exact length_filter_add_length_filter_not ok l

theorem C4_batch_seven_witness :
    (chunkList 2 [0, 1, 2, 3, 4, 5, 6]).map List.length = [2, 2, 2, 1] ∧
    mutationCalls [0, 1, 2, 3, 4, 5, 6] 2 = 4 ∧
    add_features (fun a => !(a == 3)) [0, 1, 2, 3, 4, 5, 6] 2 +
      ([0, 1, 2, 3, 4, 5, 6].filter (fun a => !(!(a == 3)))).length = 7 :=
  C4_batch_seven [0, 1, 2, 3, 4, 5, 6] (fun a => !(a == 3)) (by rfl)

/-! ## Claim C7 -/

theorem queueFields_invariant (layerFields : List String) (reqs : List NewField)
    (acc : List NewField)
    (h1 : (acc.map NewField.name).Nodup)
    (h2 : ∀ f ∈ acc, ¬ (f.name ∈ layerFields)) :
    ((queueFields layerFields reqs acc).map NewField.name).Nodup ∧
    ∀ f ∈ queueFields layerFields reqs acc, ¬ (f.name ∈ layerFields) := by
  induction reqs generalizing acc with
  | nil => exact ⟨h1, h2⟩
  | cons r rs ih =>
    rw [queueFields]
    by_cases hex : field_already_exists r.name layerFields acc = true
    · rw [if_pos hex]
      exact ih acc h1 h2
    · rw [if_neg hex]
      simp only [field_already_exists, Bool.or_eq_true, List.any_eq_true,
        decide_eq_true_eq, not_or, not_exists] at hex
      have hname : ¬ (r.name ∈ (acc.map NewField.name)) := by
        intro hmem
        rcases List.mem_map.mp hmem with ⟨f, hf, hfeq⟩
        exact hex.2 f ⟨hf, hfeq⟩
      have hlayer : ¬ (r.name ∈ layerFields) := by
        intro hmem
        exact hex.1 r.name ⟨hmem, rfl⟩
      apply ih
      · simp only [List.map_append, List.map_cons, List.map_nil]
        rw [List.nodup_append]
        refine ⟨h1, List.nodup_singleton _, ?_⟩
        intro a ha hb
        simp only [List.mem_singleton] at hb
        subst hb
        exact hname ha
      · intro f hf
        rcases List.mem_append.mp hf with hf | hf
        · exact h2 f hf
        · simp only [List.mem_singleton] at hf
          subst hf
          exact hlayer

/-- C7: over one reconciliation pass, starting from the empty pending list,
a composite field name is queued at most once: the resulting
`fields_to_add` list has pairwise-distinct names and contains no name
already declared in the target layer, for every request stream. -/
theorem C7_fields_queued_once (layerFields : List String) (reqs : List NewField) :
    ((queueFields layerFields reqs []).map NewField.name).Nodup ∧
    ∀ f ∈ queueFields layerFields reqs [], ¬ (f.name ∈ layerFields) :=
  queueFields_invariant layerFields reqs [] (by simp) (by simp)

theorem C7_fields_queued_once_witness :
    ¬ ("cause_string" ∈ ["ER_REPORT_NUMBER", "EditDate"]) :=
  (C7_fields_queued_once ["ER_REPORT_NUMBER", "EditDate"]
      [NewField.mk "cause_string" "esriFieldTypeString" "Cause",
       NewField.mk "cause_string" "esriFieldTypeString" "Cause"]).2
    (NewField.mk "cause_string" "esriFieldTypeString" "Cause") (by decide)

/-! ## Claim C5 -/

/-- C5: a list-valued field is translated by substituting each element
through the value map (unmapped elements unchanged), stringifying each
element, and joining with a comma; a scalar is first wrapped as a
one-element list; in particular the list `["a","b"]` with map
`a to Alpha, b to Beta` yields the single attribute string `"Alpha,Beta"`. -/
theorem C5_multi_value_translation :
    (∀ (vm : VMap) (l : List PyVal),
        fieldAttr (some vm) (RawVal.list l)
          = String.intercalate "," (l.map (fun v => pyStr (vmapGet vm v)))) ∧
    (∀ (vm : VMap) (v : PyVal), (∀ p ∈ vm, p.1 ≠ v) → vmapGet vm v = v) ∧
    (∀ (vm : Option VMap) (v : PyVal),
        fieldAttr vm (RawVal.scalar v) = fieldAttr vm (RawVal.list [v])) ∧
    fieldAttr (some [(PyVal.vstr "a", PyVal.vstr "Alpha"), (PyVal.vstr "b", PyVal.vstr "Beta")])
        (RawVal.list [PyVal.vstr "a", PyVal.vstr "b"]) = "Alpha,Beta" := by
  refine ⟨?_, ?_, ?_, ?_⟩
  · intro vm l
    simp only [fieldAttr, translateFieldValue, coerceList, substOne, List.map_map]
    rfl
  · intro vm v h
    unfold vmapGet
    have : vm.find? (fun p => p.1 = v) = none := by
      rw [List.find?_eq_none]
      intro p hp
      simpa using h p hp
    rw [this]
  · intro vm v
    rfl
  · rfl

theorem C5_multi_value_translation_witness :
    vmapGet [(PyVal.vstr "a", PyVal.vstr "Alpha"), (PyVal.vstr "b", PyVal.vstr "Beta")]
        (PyVal.vstr "z") = PyVal.vstr "z" :=
  C5_multi_value_translation.2.1
    [(PyVal.vstr "a", PyVal.vstr "Alpha"), (PyVal.vstr "b", PyVal.vstr "Beta")]
    (PyVal.vstr "z") (by decide)

/-! ## Claim C2 -/

/-- C2 counterexample: the translation loop writes substituted elements back
into the record's list in place, so translating the same raw record object
twice is translating the once-mutated list; with value map
`a to b, b to c` and raw list `["a"]` the first pass yields attribute `"b"`
and the second yields `"c"`. -/
theorem C2_counterexample :
    fieldAttr (some chainedVMap) (RawVal.list [PyVal.vstr "a"]) = "b" ∧
    fieldAttr (some chainedVMap)
        (mutatedRaw (some chainedVMap) (RawVal.list [PyVal.vstr "a"])) = "c" ∧
    ¬ (fieldAttr (some chainedVMap)
          (mutatedRaw (some chainedVMap) (RawVal.list [PyVal.vstr "a"]))
        = fieldAttr (some chainedVMap) (RawVal.list [PyVal.vstr "a"])) := by
  refine ⟨rfl, rfl, by decide⟩

/-- C2 (amended): the translation is a deterministic function of the record
and schema, and re-applying it to the mutated record yields the identical
attribute provided every translated element is a fixpoint of the value-map
substitution (always the case for scalar raw values, whose record entry is
not mutated, and whenever the value map's outputs are not themselves mapped
keys); without that proviso a chained value map changes the result, as the
counterexample shows. -/
theorem C2_translate_stable (vm : Option VMap) (r : RawVal)
    (h : ∀ v ∈ translateFieldValue vm r, substOne vm v = v) :
    fieldAttr vm (mutatedRaw vm r) = fieldAttr vm r := by
  cases r with
  | scalar v => rfl
  | list l =>
    unfold fieldAttr
    have hsub : (translateFieldValue vm (RawVal.list l)).map (substOne vm)
        = translateFieldValue vm (RawVal.list l) := by
      rw [List.map_congr_left h]
      exact List.map_id _
    have hstr : ∀ (l2 : List PyVal),
        ((l2.map (fun v => PyVal.vstr (pyStr v))).map (fun v => PyVal.vstr (pyStr v)))
          = l2.map (fun v => PyVal.vstr (pyStr v)) := by
      intro l2
      rw [List.map_map]
      rfl
    show String.intercalate ","
        ((translateFieldValue vm (mutatedRaw vm (RawVal.list l))).map pyStr) = _
    have : translateFieldValue vm (mutatedRaw vm (RawVal.list l))
        = translateFieldValue vm (RawVal.list l) := by
      show ((coerceList (mutatedRaw vm (RawVal.list l))).map (substOne vm)).map
          (fun v => PyVal.vstr (pyStr v)) = _
      have hcoerce : coerceList (mutatedRaw vm (RawVal.list l))
          = translateFieldValue vm (RawVal.list l) := rfl
      rw [hcoerce, hsub]
      show ((((l.map (substOne vm)).map (fun v => PyVal.vstr (pyStr v)))).map
          (fun v => PyVal.vstr (pyStr v))) = _
      rw [hstr]
      rfl
    rw [this]

theorem C2_translate_stable_witness :
    fieldAttr (some [(PyVal.vstr "a", PyVal.vstr "Alpha")])
        (mutatedRaw (some [(PyVal.vstr "a", PyVal.vstr "Alpha")])
          (RawVal.list [PyVal.vstr "a", PyVal.vint 7]))
      = fieldAttr (some [(PyVal.vstr "a", PyVal.vstr "Alpha")])
          (RawVal.list [PyVal.vstr "a", PyVal.vint 7]) :=
  C2_translate_stable (some [(PyVal.vstr "a", PyVal.vstr "Alpha")])
    (RawVal.list [PyVal.vstr "a", PyVal.vint 7]) (by decide)

/-! ## Claim C8 -/

theorem clean_field_name_data (f : String) :
    (clean_field_name f).data = f.data.map (fun c => if c = '-' then '_' else c) :=
  rfl

theorem string_append_data (s t : String) : (s ++ t).data = s.data ++ t.data :=
  rfl

theorem clean_fixes_no_hyphen (t : String) (h : ¬ ('-' ∈ t.data)) :
    t.data.map (fun c => if c = '-' then '_' else c) = t.data := by
  rw [List.map_congr_left, List.map_id]
  intro c hc
  have : ¬ (c = '-') := fun he => h (he ▸ hc)
  simp [this]

/-- C8: two raw fields with the same base name but different declared types
get the composite names `clean_field_name(base + "_" + type)`, which differ
whenever the declared types differ (hyphen-free type strings, as all ER
schema type names are), so the two attributes land under distinct keys and
setting one never overwrites the other; the associated Esri types come from
the fixed table sending `string` to `esriFieldTypeString`, `number` to
`esriFieldTypeDouble`, anything else to the string default. -/
theorem C8_composite_names (base t1 t2 v1 v2 : String) (m : AttrMap)
    (hne : ¬ (t1 = t2)) (h1 : ¬ ('-' ∈ t1.data)) (h2 : ¬ ('-' ∈ t2.data)) :
    ¬ (compositeFieldName base t1 = compositeFieldName base t2) ∧
    getAttr (setAttr (setAttr m (compositeFieldName base t1) v1)
        (compositeFieldName base t2) v2) (compositeFieldName base t2) = some v2 ∧
    getAttr (setAttr (setAttr m (compositeFieldName base t1) v1)
        (compositeFieldName base t2) v2) (compositeFieldName base t1) = some v1 ∧
    esriTypeFor "string" = "esriFieldTypeString" ∧
    esriTypeFor "number" = "esriFieldTypeDouble" ∧
    (∀ t, ¬ (t = "string") → ¬ (t = "number") → esriTypeFor t = "esriFieldTypeString") := by
  have hdata : ∀ t : String, ¬ ('-' ∈ t.data) →
      (compositeFieldName base t).data
        = base.data.map (fun c => if c = '-' then '_' else c) ++ ('_' :: t.data) := by
    intro t ht
    show (clean_field_name (base ++ "_" ++ t)).data = _
    rw [clean_field_name_data, string_append_data, string_append_data]
    rw [List.map_append, List.map_append, clean_fixes_no_hyphen t ht]
    have hu : List.map (fun c => if c = '-' then '_' else c) ("_" : String).data = ['_'] := by
      decide
    rw [hu, List.append_assoc]
    rfl
  have hmain : ¬ (compositeFieldName base t1 = compositeFieldName base t2) := by
    intro he
    apply hne
    have hd : (compositeFieldName base t1).data = (compositeFieldName base t2).data := by
      rw [he]
    rw [hdata t1 h1, hdata t2 h2] at hd
    have := List.append_cancel_left hd
    have hdt : t1.data = t2.data := by
      injection this
    exact String.ext hdt
  refine ⟨hmain, getAttr_setAttr_same _ _ _, ?_, rfl, rfl, ?_⟩
  · rw [getAttr_setAttr_other _ _ _ _ hmain]
    exact getAttr_setAttr_same _ _ _
  · intro t hs hn
    unfold esriTypeFor ER_TO_ESRI_FIELD_TYPE
    simp only [List.find?]
    have hs2 : ((("string" : String), ("esriFieldTypeString" : String)).1 = t) = False := by
      simp
      intro he
      exact hs he.symm
    have hn2 : ((("number" : String), ("esriFieldTypeDouble" : String)).1 = t) = False := by
      simp
      intro he
      exact hn he.symm
    by_cases hd : t = "default"
    · subst hd
      rfl
    · have hd2 : ¬ (("default" : String) = t) := fun he => hd he.symm
      simp [hs2, hn2, hd2, fun he => hs (Eq.symm he), fun he => hn (Eq.symm he)]

theorem C8_composite_names_witness :
    ¬ (compositeFieldName "size" "string" = compositeFieldName "size" "number") ∧
    getAttr (setAttr (setAttr [] (compositeFieldName "size" "string") "big")
        (compositeFieldName "size" "number") "7.0") (compositeFieldName "size" "number")
      = some "7.0" ∧
    getAttr (setAttr (setAttr [] (compositeFieldName "size" "string") "big")
        (compositeFieldName "size" "number") "7.0") (compositeFieldName "size" "string")
      = some "big" ∧
    esriTypeFor "string" = "esriFieldTypeString" ∧
    esriTypeFor "number" = "esriFieldTypeDouble" ∧
    (∀ t, ¬ (t = "string") → ¬ (t = "number") → esriTypeFor t = "esriFieldTypeString") :=
  C8_composite_names "size" "string" "number" "big" "7.0" []
    (by decide) (by decide) (by decide)

/-! ## Claim C6 -/

/-- C6: when the events query raises an error whose text contains the
`Invalid field: ER_REPORT_NUMBER` marker, `_get_existing_esri_events`
returns an empty index; any other query error is re-raised unchanged, and a
successful query yields the built index. -/
theorem C6_bootstrap_empty_index (q : Except String (List QueriedEvent)) :
    (∀ e, q = Except.error e →
      (strContainsSub missingFieldPattern e = true →
          get_existing_esri_events q = Except.ok []) ∧
      (strContainsSub missingFieldPattern e = false →
          get_existing_esri_events q = Except.error e)) ∧
    (∀ rows, q = Except.ok rows →
        get_existing_esri_events q = Except.ok (buildEventIndex rows)) := by
  constructor
  · intro e he
    subst he
    constructor
    · intro hsub
      simp [get_existing_esri_events, hsub]
    · intro hsub
      simp [get_existing_esri_events, hsub]
  · intro rows hr
    subst hr
    rfl

theorem C6_bootstrap_empty_index_witness :
    get_existing_esri_events (Except.error (String.mk
        ("Error performing query operation: ".data ++ missingFieldPattern.data)))
      = Except.ok [] ∧
    get_existing_esri_events
        (Except.error "Error performing query operation: token expired")
      = Except.error "Error performing query operation: token expired" :=
  ⟨((C6_bootstrap_empty_index _).1 _ rfl).1 (by decide),
   ((C6_bootstrap_empty_index _).1 _ rfl).2 (by decide)⟩

/-! ## Claim C1 -/

/-- C1 counterexample: at the exact tie
`existing.last_edit = record.update_time + padding` the code's strict
comparison at line 505 does not fire, so the record is not skipped — it is
routed to the update list, refuting the claimed inclusive threshold. -/
theorem C1_counterexample :
    indexLookup c1Index c1Event.serial = some (EsriEventRef.mk 7 paddingMs) ∧
    (EsriEventRef.mk 7 paddingMs).editDateMs = c1Event.updatedAtMs + paddingMs ∧
    eventDecision c1Index true c1Event = Decision.update := by
  refine ⟨rfl, by decide, by decide⟩

/-- C1 (amended): for a known key the staleness skip is governed by a
strict comparison: the record is skipped when the existing feature's last
edit is strictly greater than the record's update time plus the padding,
and when it is less than or equal (including the exact tie) the record is
not skipped — it becomes an UPDATE whenever it is not a collection excluded
by configuration. -/
theorem C1_skip_threshold (idx : List (String × EsriEventRef)) (incl : Bool)
    (e : EREventRec) (ref : EsriEventRef)
    (href : indexLookup idx e.serial = some ref) :
    (ref.editDateMs > e.updatedAtMs + paddingMs →
        eventDecision idx incl e = Decision.skip) ∧
    (ref.editDateMs ≤ e.updatedAtMs + paddingMs →
        (incl = true ∨ e.isCollection = false) →
        eventDecision idx incl e = Decision.update) := by
  constructor
  · intro h
    simp [eventDecision, href, h]
  · intro h hcfg
    have hc : (!incl && e.isCollection) = false := by
      rcases hcfg with h1 | h1 <;> simp [h1]
    simp [eventDecision, href, not_lt.mpr h, hc]

theorem C1_skip_threshold_witness :
    eventDecision [("33", EsriEventRef.mk 4 (paddingMs + 1))] true
        (EREventRec.mk "33" 0 false) = Decision.skip :=
  (C1_skip_threshold [("33", EsriEventRef.mk 4 (paddingMs + 1))] true
      (EREventRec.mk "33" 0 false) (EsriEventRef.mk 4 (paddingMs + 1)) rfl).1
    (by decide)

/-! ## Claim C3 -/

/-- C3: an event whose serial number is absent from the existing-feature
index is never routed to the update list, and is an INSERT whenever it is
not skipped; an event with a known key that is not skipped is an UPDATE;
and the routed lists are exactly the insert-decided events (without
`OBJECTID`) and the update-decided events carrying the existing feature's
`OBJECTID` from the index. -/
theorem C3_insert_update_routing (idx : List (String × EsriEventRef)) (incl : Bool)
    (e : EREventRec) (es : List EREventRec) :
    (indexLookup idx e.serial = none →
      ¬ (eventDecision idx incl e = Decision.update) ∧
      (¬ (eventDecision idx incl e = Decision.skip) →
          eventDecision idx incl e = Decision.insert)) ∧
    (∀ ref, indexLookup idx e.serial = some ref →
      ¬ (eventDecision idx incl e = Decision.skip) →
        eventDecision idx incl e = Decision.update) ∧
    routeEvents idx incl es =
      ((es.filter (fun x => eventDecision idx incl x = Decision.insert)).map
          (fun x => RoutedFeature.mk x.serial none),
       (es.filter (fun x => eventDecision idx incl x = Decision.update)).map
          (fun x => RoutedFeature.mk x.serial
            ((indexLookup idx x.serial).map (fun r => r.objectId)))) := by
  refine ⟨?_, ?_, ?_⟩
  · intro hnone
    by_cases hc : (!incl && e.isCollection) = true
    · have hd : eventDecision idx incl e = Decision.skip := by
        simp [eventDecision, hnone, hc]
      rw [hd]
      exact ⟨by decide, fun hn => absurd rfl hn⟩
    · have hd : eventDecision idx incl e = Decision.insert := by
        simp [eventDecision, hnone, hc]
      rw [hd]
      exact ⟨by decide, fun _ => rfl⟩
  · intro ref href hns
    by_cases hstale : ref.editDateMs > e.updatedAtMs + paddingMs
    · exact absurd (by simp [eventDecision, href, hstale]) hns
    · by_cases hc : (!incl && e.isCollection) = true
      · exact absurd (by simp [eventDecision, href, hstale, hc]) hns
      · simp [eventDecision, href, hstale, hc]
  · induction es with
    | nil => rfl
    | cons x xs ih =>
      rw [routeEvents]
      cases hdec : eventDecision idx incl x with
      | skip => simp [hdec, ih, List.filter_cons]
      | insert => simp [hdec, ih, List.filter_cons]
      | update => simp [hdec, ih, List.filter_cons]

theorem C3_insert_update_routing_witness :
    routeEvents [("101", EsriEventRef.mk 7 paddingMs)] true
        [EREventRec.mk "5" 0 false, EREventRec.mk "101" 0 false] =
      (([EREventRec.mk "5" 0 false].map (fun x => RoutedFeature.mk x.serial none)),
       ([EREventRec.mk "101" 0 false].map (fun x => RoutedFeature.mk x.serial
          ((indexLookup [("101", EsriEventRef.mk 7 paddingMs)] x.serial).map
            (fun r => r.objectId))))) ∧
    eventDecision [("101", EsriEventRef.mk 7 paddingMs)] true
        (EREventRec.mk "5" 0 false) = Decision.insert := by
  have h := C3_insert_update_routing [("101", EsriEventRef.mk 7 paddingMs)] true
    (EREventRec.mk "5" 0 false)
    [EREventRec.mk "5" 0 false, EREventRec.mk "101" 0 false]
  refine ⟨?_, (h.1 rfl).2 (by decide)⟩
  rw [h.2.2]
  decide

/-! ## Claim C10 -/

/-- C10: the observation-point synchronization never issues an update
mutation: the update list handed to `_upsert_features` is literally empty,
so the update pass makes zero mutation calls and reports zero updates, and
the add list consists exactly of the observations whose id is not already
in the existing-point index — existing observation features are never
modified. -/
theorem C10_track_points_add_only (existingIds : List String)
    (subjectId subjectName : String) (points : List ObsPoint)
    (ok : TrackFeature → Bool) :
    (trackPointUpsertArgs existingIds subjectId subjectName points).2 = [] ∧
    update_features ok (trackPointUpsertArgs existingIds subjectId subjectName points).2 50
      = 0 ∧
    mutationCalls (trackPointUpsertArgs existingIds subjectId subjectName points).2 50 = 0 ∧
    (trackPointUpsertArgs existingIds subjectId subjectName points).1 =
      (points.filter (fun p => !(existingIds.any (fun k => k = p.id)))).map
        (mkTrackFeature subjectId subjectName) := by
  refine ⟨rfl, ?_, ?_, ?_⟩
  · show update_features ok [] 50 = 0
    unfold update_features
    rw [chunkList]
    rfl
  · show mutationCalls ([] : List TrackFeature) 50 = 0
    unfold mutationCalls
    rw [chunkList]
    rfl
  · show trackPointAdds existingIds subjectId subjectName points = _
    unfold trackPointAdds
    induction points with
    | nil => rfl
    | cons p ps ih =>
      by_cases hmem : existingIds.any (fun k => k = p.id) = true
      · rw [List.filterMap_cons_none (by rw [if_pos hmem]),
            List.filter_cons_of_neg (by simp [hmem])]
        exact ih
      · rw [List.filterMap_cons_some (by rw [if_neg hmem]),
            List.filter_cons_of_pos (by simp [Bool.eq_false_iff.mpr hmem]),
            List.map_cons, ih]

end AgolSpec
